import Mathlib

/-!
Verification of the phasorsyncrs transport / scheduling core.

Conventions of the shallow embedding:
* Time (Instant values and Durations) is modelled in whole microseconds as
  `Nat`; this is the granularity at which the code's interval filter operates
  (`Duration::as_micros`).  `Instant` subtraction saturates at zero, matching
  `Nat` subtraction.
* Rust `u64` counters are modelled as `Nat` (their 2^64 overflow is not
  reachable); the explicit narrowing casts `as u32` in `state.rs` are
  modelled faithfully as reduction modulo 2^32 (`u32cast`).
* `f64` tempo arithmetic is modelled over `ℚ`; the inputs exercised by the
  theorems below are exactly representable, and `f64::round` (round half away
  from zero) on non-negative values is `rustRound`.
* Stateful methods become explicit state-passing functions; MIDI port sends
  become returned lists of messages (delivery order preserved); logging has
  no observable effect and is not modelled; the recording subprocess and the
  MIDI device I/O are external collaborators (spec section 6) and are not
  modelled.
-/

namespace Phasor

/-! ## config.rs -/

def TICKS_PER_BEAT : Nat := 24
def BEATS_PER_BAR : Nat := 4

/-- The `as u32` narrowing cast of Rust. -/
def u32cast (n : Nat) : Nat := n % 4294967296

/-! ## state.rs -/

inductive TransportState
  | stopped
  | playing
deriving DecidableEq, Repr

structure SharedState where
  bpm : Nat
  tick_count : Nat
  current_beat : Nat
  current_bar : Nat
  transport_state : TransportState
deriving DecidableEq, Repr

def SharedState.new (_bpm : Nat) : SharedState :=
  { bpm := 0
    tick_count := 0
    current_beat := 0
    current_bar := 0
    transport_state := .stopped }

def SharedState.tick_update (s : SharedState) : SharedState :=
  if s.transport_state ≠ .playing then s
  else
    let tc := s.tick_count + 1
    let beat_number := (tc / TICKS_PER_BEAT) % BEATS_PER_BAR
    let bar_number := tc / (TICKS_PER_BEAT * BEATS_PER_BAR)
    { s with
        tick_count := tc
        current_beat := u32cast (beat_number + 1)
        current_bar := u32cast (bar_number + 1) }

/-! ## musical_graph.rs -/

namespace MusicalGraph

def MG_TICKS_PER_BEAT : Nat := 24
def MG_BEATS_PER_BAR : Nat := 4
def TRIGGER_EVERY_N_BARS : Nat := 1

/-- `musical_graph::process_tick`; the static `MUSICAL_TICK_COUNT` is passed
and returned explicitly. -/
def process_tick (shared : SharedState) (musical_tick_count : Nat) : Bool × Nat :=
  if shared.transport_state ≠ .playing then (false, musical_tick_count)
  else
    let c := musical_tick_count + 1
    let beat := (c / MG_TICKS_PER_BEAT) % MG_BEATS_PER_BAR
    let bar := c / (MG_TICKS_PER_BEAT * MG_BEATS_PER_BAR) + 1
    (if beat = 0 ∧ 0 < bar ∧ 0 < TRIGGER_EVERY_N_BARS ∧ c % MG_TICKS_PER_BEAT = 0
      then true else false, c)

end MusicalGraph


namespace MidiOutput

inductive MidiMessage
  | noteOn (channel note velocity duration_ticks : Nat)
  | noteOff (channel note : Nat)
  | allNotesOff (channel : Nat)
deriving DecidableEq, Repr

structure MidiOutputManager where
  scheduled_notes : Nat → List MidiMessage

def MidiOutputManager.new : MidiOutputManager := ⟨fun _ => []⟩

/-- `MidiOutputManager::process_scheduled_events`: flush (remove and send) the
entries keyed exactly at `current_tick`. -/
def process_scheduled_events (m : MidiOutputManager) (current_tick : Nat) :
    List MidiMessage × MidiOutputManager :=
  (m.scheduled_notes current_tick,
   ⟨fun k => if k = current_tick then [] else m.scheduled_notes k⟩)

/-- `MidiOutputManager::process_note_on`: send the NoteOn immediately (with
`duration_ticks = 0`) and push a NoteOff under key `current_tick + duration_ticks`. -/
def process_note_on (m : MidiOutputManager) (note_event : MidiMessage)
    (current_tick : Nat) : List MidiMessage × MidiOutputManager :=
  match note_event with
  | .noteOn channel note velocity duration_ticks =>
      ([.noteOn channel note velocity 0],
       ⟨fun k => if k = current_tick + duration_ticks
                 then m.scheduled_notes k ++ [.noteOff channel note]
                 else m.scheduled_notes k⟩)
  | _ => ([], m)

def process_single_event (m : MidiOutputManager) (ev : MidiMessage)
    (current_tick : Nat) : List MidiMessage × MidiOutputManager :=
  match ev with
  | .noteOn c n v d => process_note_on m (.noteOn c n v d) current_tick
  | ev => ([ev], m)

/-- The `for event in new_events` loop of `process_tick_events`. -/
def process_new_events (m : MidiOutputManager) (current_tick : Nat) :
    List MidiMessage → List MidiMessage × MidiOutputManager
  | [] => ([], m)
  | e :: es =>
      let r₁ := process_single_event m e current_tick
      let r₂ := process_new_events r₁.2 current_tick es
      (r₁.1 ++ r₂.1, r₂.2)

/-- `MidiOutputManager::process_tick_events`: flush scheduled events due at
`current_tick` first, then process the new events. -/
def process_tick_events (m : MidiOutputManager) (current_tick : Nat)
    (new_events : List MidiMessage) : List MidiMessage × MidiOutputManager :=
  let r₁ := process_scheduled_events m current_tick
  let r₂ := process_new_events r₁.2 current_tick new_events
  (r₁.1 ++ r₂.1, r₂.2)

/-- A run of the EventLoop's MIDI side: `process_tick_events` on consecutive
ticks `t, t+1, …` (`tick_count` advances by 1 per Playing tick), returning the
per-tick batches of sent messages. -/
def runTicks (m : MidiOutputManager) (t : Nat) :
    List (List MidiMessage) → List (List MidiMessage) × MidiOutputManager
  | [] => ([], m)
  | E :: Es =>
      let r₁ := process_tick_events m t E
      let r₂ := runTicks r₁.2 (t + 1) Es
      (r₁.1 :: r₂.1, r₂.2)

def isNoteOffFor (ch note : Nat) : MidiMessage → Bool
  | .noteOff c n => c = ch && n = note
  | _ => false

def isNoteOnFor (ch note : Nat) : MidiMessage → Bool
  | .noteOn c n _ _ => c = ch && n = note
  | _ => false

def isNoteOnForD (ch note d : Nat) : MidiMessage → Bool
  | .noteOn c n _ d' => c = ch && n = note && d' = d
  | _ => false

def countNoteOff (ch note : Nat) (l : List MidiMessage) : Nat :=
  l.countP (isNoteOffFor ch note)

def countNoteOn (ch note : Nat) (l : List MidiMessage) : Nat :=
  l.countP (isNoteOnFor ch note)

def countNoteOnD (ch note d : Nat) (l : List MidiMessage) : Nat :=
  l.countP (isNoteOnForD ch note d)

/-- Image of an event under immediate send (`NoteOn` is sent with its
`duration_ticks` zeroed, everything else verbatim). -/
def sent_image : MidiMessage → MidiMessage
  | .noteOn c n v _ => .noteOn c n v 0
  | e => e

end MidiOutput

/-! ## event_loop.rs -/

def TICK_HISTORY_SIZE : Nat := 24 * 4

/-- Free function `update_tick_history`: push the duration, pop the front once
the deque exceeds `TICK_HISTORY_SIZE`. -/
def update_tick_history (tick_history : List Nat) (duration : Nat) : List Nat :=
  let pushed := tick_history ++ [duration]
  if pushed.length > TICK_HISTORY_SIZE then pushed.drop 1 else pushed

/-- Rust's `f64::round` (round half away from zero) for the non-negative
tempo values produced here, followed by the `as u32` conversion. -/
def rustRound (q : ℚ) : Nat := (⌊q + 1/2⌋).toNat

/-- `event_loop::calculate_bpm` (durations in µs, result in BPM). -/
def calculate_bpm (tick_history : List Nat) : Nat :=
  if tick_history.isEmpty then 60
  else
    let total_duration := tick_history.sum
    let average_duration := total_duration / tick_history.length
    let seconds : ℚ := (average_duration : ℚ) / 1000000
    if seconds = 0 then 60
    else rustRound (60 / (seconds * 24))

inductive TransportAction
  | start
  | stop
deriving DecidableEq, Repr

/-- `EngineMessage`; a `Tick` carries the `Instant::now()` observed when the
EventLoop handles it. -/
inductive EngineMessage
  | tick (now : Nat)
  | transportCommand (action : TransportAction)

/-- The `EventLoop` struct state: the shared transport state, the BPM tick
history, the MIDI output manager, and the (statically stored) musical tick
counter.  Channels and the recording manager are external collaborators. -/
structure EventLoop where
  shared_state : SharedState
  last_tick_time : Option Nat
  tick_history : List Nat
  midi_output : MidiOutput.MidiOutputManager
  musical_tick_count : Nat

def EventLoop.init (bpm : Nat) : EventLoop :=
  { shared_state := SharedState.new bpm
    last_tick_time := none
    tick_history := []
    midi_output := .new
    musical_tick_count := 0 }

/-- `EventLoop::update_tick_history`: on a repeat tick, record the inter-tick
duration and store the recalculated BPM; always record `now`. -/
def EventLoop.update_tick_history_step (s : EventLoop) (now : Nat) : EventLoop :=
  match s.last_tick_time with
  | some last_time =>
      let duration := now - last_time
      let hist := update_tick_history s.tick_history duration
      { s with
          tick_history := hist
          shared_state := { s.shared_state with bpm := calculate_bpm hist }
          last_tick_time := some now }
  | none => { s with last_tick_time := some now }

/-- `EventLoop::get_midi_events_from_musical_graph` (also returns the updated
musical tick counter). -/
def EventLoop.get_midi_events_from_musical_graph (s : EventLoop) :
    List MidiOutput.MidiMessage × Nat :=
  let r := MusicalGraph.process_tick s.shared_state s.musical_tick_count
  ((if r.1 then [.noteOn 1 60 100 48] else []), r.2)

/-- `EventLoop::handle_tick`: update tick history / BPM, advance the shared
state, generate musical events, then flush and schedule MIDI events.  Returns
the messages sent on the MIDI output port. -/
def EventLoop.handle_tick (s : EventLoop) (now : Nat) :
    EventLoop × List MidiOutput.MidiMessage :=
  let s₁ := s.update_tick_history_step now
  let s₂ := { s₁ with shared_state := s₁.shared_state.tick_update }
  let current_tick := s₂.shared_state.tick_count
  let ev := s₂.get_midi_events_from_musical_graph
  let r := MidiOutput.process_tick_events s₂.midi_output current_tick ev.1
  ({ s₂ with midi_output := r.2, musical_tick_count := ev.2 }, r.1)

/-- `EventLoop::handle_transport_command` (the recording side effects are
external collaborators; `reset_musical_tick_count` zeroes the counter). -/
def EventLoop.handle_transport_command (s : EventLoop)
    (action : TransportAction) : EventLoop :=
  match s.shared_state.transport_state, action with
  | .stopped, .start =>
      { s with shared_state :=
          { s.shared_state with transport_state := .playing } }
  | .playing, .stop =>
      { s with
          shared_state :=
            { s.shared_state with
                transport_state := .stopped
                tick_count := 0
                current_beat := 0
                current_bar := 0 }
          musical_tick_count := 0 }
  | .playing, .start => s
  | .stopped, .stop => s

/-- One iteration of `EventLoop::run`. -/
def EventLoop.run_step (s : EventLoop) :
    EngineMessage → EventLoop × List MidiOutput.MidiMessage
  | .tick now => s.handle_tick now
  | .transportCommand action => (s.handle_transport_command action, [])

/-- Reachability invariant of the event loop: while Stopped the position
counters (and the musical counter) are zero, and nothing is ever scheduled
under tick key 0. -/
def EventLoopInv (s : EventLoop) : Prop :=
  (s.shared_state.transport_state = .stopped →
     s.shared_state.tick_count = 0 ∧ s.shared_state.current_beat = 0 ∧
     s.shared_state.current_bar = 0 ∧ s.musical_tick_count = 0) ∧
  s.midi_output.scheduled_notes 0 = []

/-! ## midi/clock/mod.rs — BpmCalculator -/

namespace Clock

inductive ClockMessage
  | Tick
  | Start
  | Stop
  | Continue
deriving DecidableEq, Repr

/-- `BpmState` plus the calculator constants `ppq = 24`, `window_size = 24`
(from `BpmCalculator::new`). -/
structure BpmState where
  last_tick_time : Option Nat
  is_playing : Bool
  tick_count : Nat
  intervals : List Nat
deriving DecidableEq, Repr

def ppq : Nat := 24
def window_size : Nat := 24

def BpmState.new : BpmState :=
  { last_tick_time := none, is_playing := false, tick_count := 0, intervals := [] }

def insertSorted (x : Nat) : List Nat → List Nat
  | [] => [x]
  | y :: ys => if x ≤ y then x :: y :: ys else y :: insertSorted x ys

/-- `intervals.sort_by_key(|d| d.as_nanos())`: for `Nat`-valued durations the
stable ascending sort produces the unique ascending reordering, computed here
by insertion sort. -/
def sortIntervals : List Nat → List Nat
  | [] => []
  | x :: xs => insertSorted x (sortIntervals xs)

/-- `BpmCalculator::maintain_interval_window`: `while len > window_size`
remove the oldest (front) sample. -/
def maintain_interval_window (l : List Nat) : List Nat :=
  if l.length > window_size then maintain_interval_window (l.drop 1) else l
termination_by l.length
decreasing_by
  simp only [List.length_drop]
  omega

/-- The trimmed-mean tempo computation inlined in both
`BpmCalculator::process_message` and `BpmCalculator::current_bpm`: sort a
copy, take the slice `[len/4, 3*len/4)`, average it (`Duration` division
truncates at the µs granularity of the model), convert the average interval
to ticks-per-minute and divide by `ppq`. -/
def trimmed_mean_bpm (intervals : List Nat) : ℚ :=
  let sorted := sortIntervals intervals
  let start_idx := intervals.length / 4
  let end_idx := intervals.length * 3 / 4
  let median_intervals := (sorted.drop start_idx).take (end_idx - start_idx)
  let avg_interval := median_intervals.sum / median_intervals.length
  let ticks_per_minute : ℚ := 60 / ((avg_interval : ℚ) / 1000000)
  ticks_per_minute / (ppq : ℚ)

/-- Modelled from the claim's words, NOT from the source (refinement foil for
the counterexample): "sort a copy, drop `len/4` samples from each end,
average the remainder". -/
def spec_trimmed_mean_bpm (intervals : List Nat) : ℚ :=
  let sorted := sortIntervals intervals
  let q := intervals.length / 4
  let median_intervals := (sorted.drop q).take (intervals.length - 2 * q)
  let avg_interval := median_intervals.sum / median_intervals.length
  let ticks_per_minute : ℚ := 60 / ((avg_interval : ℚ) / 1000000)
  ticks_per_minute / (ppq : ℚ)

/-- `BpmCalculator::process_message`; `now` is the `Instant::now()` observed
inside the `Tick` arm. -/
def process_message (st : BpmState) (now : Nat) (msg : ClockMessage) :
    Option ℚ × BpmState :=
  match msg with
  | .Start =>
      (none, { last_tick_time := none, is_playing := true,
               tick_count := 0, intervals := [] })
  | .Stop => (none, { st with is_playing := false })
  | .Continue => (none, { st with is_playing := true })
  | .Tick =>
      if st.is_playing = false then (none, st)
      else
        let intervals₁ :=
          match st.last_tick_time with
          | some last_time =>
              let interval := now - last_time
              if 1000 < interval ∧ interval < 100000
              then maintain_interval_window (st.intervals ++ [interval])
              else st.intervals
          | none => st.intervals
        let st' := { st with
          intervals := intervals₁
          last_tick_time := some now
          tick_count := st.tick_count + 1 }
        if 3 ≤ intervals₁.length
        then (some (trimmed_mean_bpm intervals₁), st')
        else (none, st')

/-- `BpmCalculator::current_bpm` (idempotent read of the same estimate). -/
def current_bpm (st : BpmState) : Option ℚ :=
  if 3 ≤ st.intervals.length then some (trimmed_mean_bpm st.intervals) else none

end Clock

/-! ## midi/engine.rs and midi/midir_engine.rs -/

namespace Midi

inductive MidiMessage
  | NoteOn (channel note velocity : Nat)
  | NoteOff (channel note velocity : Nat)
  | ControlChange (channel controller value : Nat)
  | ProgramChange (channel program : Nat)
  | Clock
  | Start
  | Stop
  | Continue
deriving DecidableEq, Repr

/-- `MidirEngine::parse_midi_message` (bytes are `Nat` values < 256). -/
def parse_midi_message : List Nat → Option MidiMessage
  | [] => none
  | first_byte :: rest =>
      if 0xF0 ≤ first_byte then
        if first_byte = 0xF8 then some .Clock
        else if first_byte = 0xFA then some .Start
        else if first_byte = 0xFC then some .Stop
        else if first_byte = 0xFB then some .Continue
        else none
      else
        let status_byte := first_byte &&& 0xF0
        let channel := first_byte &&& 0x0F
        if status_byte = 0x90 then
          match rest with
          | note :: velocity :: _ => some (.NoteOn channel note velocity)
          | _ => none
        else if status_byte = 0x80 then
          match rest with
          | note :: velocity :: _ => some (.NoteOff channel note velocity)
          | _ => none
        else if status_byte = 0xB0 then
          match rest with
          | controller :: value :: _ => some (.ControlChange channel controller value)
          | _ => none
        else if status_byte = 0xC0 then
          match rest with
          | program :: _ => some (.ProgramChange channel program)
          | _ => none
        else none

/-- `impl From<MidiMessage> for ClockMessage` (midi/clock/mod.rs): any
non-realtime message defaults to `Tick`. -/
def clock_message_from_midi : MidiMessage → Clock.ClockMessage
  | .Clock => .Tick
  | .Start => .Start
  | .Stop => .Stop
  | .Continue => .Continue
  | _ => .Tick

end Midi

/-! ## midi/external_clock.rs (the watchdog path) -/

namespace MidiExternalClock

/-- The shared transport handle of this path (`crate::SharedState`,
`transport/mod.rs` methods). -/
structure TransportShared where
  bpm : ℚ
  tick_count : Nat
  beat : Nat
  bar : Nat
  is_playing : Bool
deriving DecidableEq, Repr

def TRANSPORT_TICKS_PER_BEAT : Nat := 24

def TransportShared.set_playing (t : TransportShared) (playing : Bool) :
    TransportShared :=
  { t with is_playing := playing }

def TransportShared.set_tempo (t : TransportShared) (bpm : ℚ) : TransportShared :=
  { t with bpm := bpm }

/-- `Transport::tick` (transport/mod.rs). -/
def TransportShared.tick (t : TransportShared) : TransportShared :=
  if ¬ t.is_playing then t
  else
    let tc := t.tick_count + 1
    if tc % TRANSPORT_TICKS_PER_BEAT = 0 then
      let beat' := t.beat + 1
      if beat' > 4 then { t with tick_count := tc, beat := 1, bar := t.bar + 1 }
      else { t with tick_count := tc, beat := beat' }
    else { t with tick_count := tc }

/-- `ExternalClock` (midi/external_clock.rs). -/
structure ExternalClock where
  bpm_calculator : Clock.BpmState
  shared_state : TransportShared
  last_message_time : Nat

def INACTIVITY_TIMEOUT : Nat := 5000000

def convert_midi_to_clock_message (msg : Midi.MidiMessage) :
    Option Clock.ClockMessage :=
  match msg with
  | .Clock => some .Tick
  | .Start => some .Start
  | .Stop => some .Stop
  | .Continue => some .Continue
  | _ => none

def handle_transport_state_changes (c : ExternalClock)
    (clock_msg : Clock.ClockMessage) : ExternalClock :=
  match clock_msg with
  | .Start => { c with shared_state := c.shared_state.set_playing true }
  | .Stop => { c with shared_state := c.shared_state.set_playing false }
  | .Continue => { c with shared_state := c.shared_state.set_playing true }
  | _ => c

def update_bpm_and_handle_ticks (c : ExternalClock) (now : Nat)
    (clock_msg : Clock.ClockMessage) : ExternalClock :=
  let r := Clock.process_message c.bpm_calculator now clock_msg
  let c₁ := { c with bpm_calculator := r.2 }
  match r.1 with
  | some bpm =>
      let c₂ := { c₁ with shared_state := c₁.shared_state.set_tempo bpm }
      match clock_msg with
      | .Tick => { c₂ with shared_state := c₂.shared_state.tick }
      | _ => c₂
  | none => c₁

def process_clock_message (c : ExternalClock) (now : Nat)
    (clock_msg : Clock.ClockMessage) : ExternalClock :=
  update_bpm_and_handle_ticks (handle_transport_state_changes c clock_msg)
    now clock_msg

/-- `ExternalClock::handle_midi_message`; `now` is the arrival instant. -/
def handle_midi_message (c : ExternalClock) (now : Nat)
    (msg : Midi.MidiMessage) : ExternalClock :=
  let c₁ := { c with last_message_time := now }
  match convert_midi_to_clock_message msg with
  | some clock_msg => process_clock_message c₁ now clock_msg
  | none => c₁

/-- `ExternalClock::check_connection_status`: on more than
`INACTIVITY_TIMEOUT` of silence, force the shared transport to not-playing
(an error is logged) and report failure. -/
def check_connection_status (c : ExternalClock) (now : Nat) :
    Bool × ExternalClock :=
  if now - c.last_message_time > INACTIVITY_TIMEOUT then
    (false, { c with shared_state := c.shared_state.set_playing false })
  else (true, c)

/-- One `rx.recv_timeout(1s)` outcome in the `run_external_clock` loop: a
timeout consumes the full second; a message arrives after `delay ≤ 1s`; the
receiver thread may have disconnected (it terminates on engine receive
errors, e.g. unparseable bytes). -/
inductive RecvOutcome
  | timeout
  | message (delay : Nat) (msg : Midi.MidiMessage)
  | channelClosed
deriving DecidableEq, Repr

inductive LoopExit
  | watchdog
  | disconnectedExit
  | inputsExhausted
deriving DecidableEq, Repr

structure LoopState where
  clock : ExternalClock
  now : Nat

/-- The supervising loop of `run_external_clock`: re-check the watchdog
before every receive; on watchdog failure the loop breaks at once, leaving
any further inputs unconsumed (returned untouched). -/
def run_external_clock_loop (s : LoopState) (inputs : List RecvOutcome) :
    LoopState × LoopExit × List RecvOutcome :=
  if (check_connection_status s.clock s.now).1 = false then
    ({ s with clock := (check_connection_status s.clock s.now).2 },
     .watchdog, inputs)
  else
    match inputs with
    | [] => (s, .inputsExhausted, [])
    | .timeout :: rest =>
        run_external_clock_loop { s with now := s.now + 1000000 } rest
    | .message d msg :: rest =>
        run_external_clock_loop
          { clock := handle_midi_message s.clock (s.now + min d 1000000) msg,
            now := s.now + min d 1000000 } rest
    | .channelClosed :: rest => (s, .disconnectedExit, rest)
termination_by inputs.length
decreasing_by
  all_goals (simp only [List.length_cons]; omega)

end MidiExternalClock

/-! ## src/external_clock.rs (the EngineMessage channel path) -/

namespace RootExternalClock

/-- What `handle_midi_message` in external_clock.rs sends on the engine
channel for a given inbound byte message (none = only logged). -/
inductive SentEngineMessage
  | tick
  | transportCommand (action : TransportAction)
deriving DecidableEq, Repr

def handle_midi_message : List Nat → Option SentEngineMessage
  | [] => none
  | b :: _ =>
      if b = 0xF8 then some .tick
      else if b = 0xFA then some (.transportCommand .start)
      else if b = 0xFC then some (.transportCommand .stop)
      else none

end RootExternalClock

/-! # Theorems -/

/-! First theorems: claims C9, C3. -/

/-- Claim C9: `SharedState::new(bpm)` ignores its argument and returns
bpm = 0, tick_count = 0, current_beat = 0, current_bar = 0,
transport_state = Stopped; beat and bar are outside their 1-indexed ranges. -/
theorem c9_new_state_zeroed (bpm : Nat) :
    SharedState.new bpm =
      { bpm := 0, tick_count := 0, current_beat := 0, current_bar := 0,
        transport_state := .stopped } ∧
    ¬ 1 ≤ (SharedState.new bpm).current_beat ∧
    ¬ 1 ≤ (SharedState.new bpm).current_bar := by
  refine ⟨rfl, ?_, ?_⟩ <;> simp [SharedState.new]

/-- Claim C3 (amended): on a Playing tick, `tick_update` increments
`tick_count` and recomputes `current_beat = (tick_count / 24) % 4 + 1 ∈ [1,4]`
and `current_bar = (tick_count / 96 + 1) mod 2^32` (the `as u32` cast);
`current_bar` equals `tick_count / 96 + 1` and is ≥ 1 whenever that value
fits in a `u32`. -/
theorem c3_beat_bar_pure_functions (s : SharedState)
    (h : s.transport_state = .playing) :
    (s.tick_update).tick_count = s.tick_count + 1 ∧
    (s.tick_update).current_beat
      = ((s.tick_update).tick_count / TICKS_PER_BEAT) % BEATS_PER_BAR + 1 ∧
    1 ≤ (s.tick_update).current_beat ∧
    (s.tick_update).current_beat ≤ BEATS_PER_BAR ∧
    (s.tick_update).current_bar
      = u32cast ((s.tick_update).tick_count / (TICKS_PER_BEAT * BEATS_PER_BAR) + 1) ∧
    ((s.tick_update).tick_count / (TICKS_PER_BEAT * BEATS_PER_BAR) + 1 < 4294967296 →
      (s.tick_update).current_bar
        = (s.tick_update).tick_count / (TICKS_PER_BEAT * BEATS_PER_BAR) + 1 ∧
      1 ≤ (s.tick_update).current_bar) := by
  have hne : ¬ s.transport_state ≠ TransportState.playing := by simp [h]
  have hmod : ((s.tick_count + 1) / TICKS_PER_BEAT) % BEATS_PER_BAR < BEATS_PER_BAR :=
    Nat.mod_lt _ (by decide)
  have hbeat : u32cast (((s.tick_count + 1) / TICKS_PER_BEAT) % BEATS_PER_BAR + 1)
      = ((s.tick_count + 1) / TICKS_PER_BEAT) % BEATS_PER_BAR + 1 := by
    have : ((s.tick_count + 1) / TICKS_PER_BEAT) % BEATS_PER_BAR + 1 < 4294967296 := by
      have h4 : BEATS_PER_BAR = 4 := rfl
      omega
    exact Nat.mod_eq_of_lt this
  have e1 : (s.tick_update).tick_count = s.tick_count + 1 := by
    simp [SharedState.tick_update, hne]
  have e2 : (s.tick_update).current_beat
      = u32cast (((s.tick_count + 1) / TICKS_PER_BEAT) % BEATS_PER_BAR + 1) := by
    simp [SharedState.tick_update, hne]
  have e3 : (s.tick_update).current_bar
      = u32cast ((s.tick_count + 1) / (TICKS_PER_BEAT * BEATS_PER_BAR) + 1) := by
    simp [SharedState.tick_update, hne]
  refine ⟨e1, ?_, ?_, ?_, ?_, ?_⟩
  · rw [e2, e1, hbeat]
  · rw [e2, hbeat]; omega
  · rw [e2, hbeat]
    simp only [TICKS_PER_BEAT, BEATS_PER_BAR]
    omega
  · rw [e3, e1]
  · intro hfit
    rw [e1] at hfit
    have hcast : u32cast ((s.tick_count + 1) / (TICKS_PER_BEAT * BEATS_PER_BAR) + 1)
        = (s.tick_count + 1) / (TICKS_PER_BEAT * BEATS_PER_BAR) + 1 :=
      Nat.mod_eq_of_lt hfit
    rw [e3, e1, hcast]
    exact ⟨rfl, Nat.le_add_left 1 _⟩

/-- Witness for C3 at a concrete Playing state. -/
theorem c3_beat_bar_pure_functions_witness :
    ({ bpm := 0, tick_count := 95, current_beat := 4, current_bar := 1,
       transport_state := .playing } : SharedState).tick_update.tick_count = 96 ∧
    ({ bpm := 0, tick_count := 95, current_beat := 4, current_bar := 1,
       transport_state := .playing } : SharedState).tick_update.current_beat = 1 := by
  have h := c3_beat_bar_pure_functions
    { bpm := 0, tick_count := 95, current_beat := 4, current_bar := 1,
      transport_state := .playing } rfl
  refine ⟨h.1, ?_⟩
  have h2 := h.2.1
  rw [h2, h.1]
  decide

/-- Counterexample to C3 as stated: at `tick_count = 96·(2^32−1) − 1` while
Playing, the next tick stores `current_bar = 0` (the `as u32` cast of
`tick_count / 96 + 1 = 2^32` wraps), violating `current_bar ≥ 1` and the
claimed formula `current_bar = tick_count / 96 + 1`. -/
theorem c3_counterexample :
    (({ bpm := 0, tick_count := 412316860319, current_beat := 0, current_bar := 0,
        transport_state := .playing } : SharedState).tick_update).current_bar = 0 ∧
    (({ bpm := 0, tick_count := 412316860319, current_beat := 0, current_bar := 0,
        transport_state := .playing } : SharedState).tick_update).tick_count
        / (TICKS_PER_BEAT * BEATS_PER_BAR) + 1 = 4294967296 := by
  constructor <;> decide

/-! ## midi_output.rs

`MidiOutputManager.send` writes to the MIDI port; the model returns the sent
messages as a list, in send order.  The `scheduled_notes: HashMap<u64, Vec<MidiMessage>>`
is modelled as a total function `Nat → List MidiMessage` (absent key = `[]`,
`remove` = point update to `[]`, `entry().or_default().push` = append). -/

namespace MidiOutput

theorem process_new_events_sent (t : Nat) :
    ∀ (E : List MidiMessage) (m : MidiOutputManager),
      (process_new_events m t E).1 = E.map sent_image := by
  intro E
  induction E with
  | nil => intro m; rfl
  | cons e es ih =>
      intro m
      cases e <;>
        simp [process_new_events, process_single_event, process_note_on,
          sent_image, ih]

theorem countNoteOff_sent_image (ch note : Nat) (E : List MidiMessage) :
    countNoteOff ch note (E.map sent_image) = countNoteOff ch note E := by
  induction E with
  | nil => rfl
  | cons e es ih =>
      cases e <;> simp [countNoteOff, sent_image, isNoteOffFor, List.countP_cons] at * <;>
        omega

theorem process_new_events_sched_count (ch note t k : Nat) :
    ∀ (E : List MidiMessage) (m : MidiOutputManager),
      countNoteOff ch note ((process_new_events m t E).2.scheduled_notes k)
        = countNoteOff ch note (m.scheduled_notes k)
          + (if t ≤ k then countNoteOnD ch note (k - t) E else 0) := by
  intro E
  induction E with
  | nil =>
      intro m
      simp [process_new_events, countNoteOnD]
  | cons e es ih =>
      intro m
      cases e with
      | noteOn c n v d =>
          rw [show process_new_events m t (.noteOn c n v d :: es)
                = ((process_single_event m (.noteOn c n v d) t).1
                    ++ (process_new_events (process_single_event m (.noteOn c n v d) t).2 t es).1,
                   (process_new_events (process_single_event m (.noteOn c n v d) t).2 t es).2)
              from rfl]
          simp only [ih]
          have hstep : countNoteOff ch note
              ((process_single_event m (.noteOn c n v d) t).2.scheduled_notes k)
              = countNoteOff ch note (m.scheduled_notes k)
                + (if k = t + d ∧ (c = ch ∧ n = note) then 1 else 0) := by
            simp only [process_single_event, process_note_on]
            by_cases hk : k = t + d
            · simp only [if_pos hk, countNoteOff, List.countP_append]
              by_cases hcn : c = ch ∧ n = note
              · simp [isNoteOffFor, hk, hcn.1, hcn.2]
              · have : (isNoteOffFor ch note (MidiMessage.noteOff c n)) = false := by
                  simp [isNoteOffFor]
                  omega
                simp [this, hk, hcn]
            · simp [hk]
          rw [hstep]
          have hcnt : countNoteOnD ch note (k - t) (MidiMessage.noteOn c n v d :: es)
              = countNoteOnD ch note (k - t) es
                + (if c = ch ∧ n = note ∧ d = k - t then 1 else 0) := by
            simp only [countNoteOnD, List.countP_cons, isNoteOnForD]
            by_cases hc : c = ch ∧ n = note ∧ d = k - t
            · simp [hc.1, hc.2.1, hc.2.2]
            · have : (decide (c = ch) && decide (n = note) && decide (d = k - t)) = false := by
                simp only [Bool.and_eq_false_iff, decide_eq_false_iff_not]
                tauto
              simp [this, hc]
          by_cases ht : t ≤ k
          · simp only [if_pos ht, hcnt]
            have : (k = t + d ∧ (c = ch ∧ n = note)) ↔ (c = ch ∧ n = note ∧ d = k - t) := by
              constructor
              · rintro ⟨h1, h2, h3⟩; exact ⟨h2, h3, by omega⟩
              · rintro ⟨h1, h2, h3⟩; exact ⟨by omega, h1, h2⟩
            rw [if_congr this rfl rfl]
            omega
          · simp only [if_neg ht]
            have : ¬ (k = t + d ∧ (c = ch ∧ n = note)) := by
              rintro ⟨h1, -⟩; omega
            simp [this]
      | noteOff c n =>
          simp only [process_new_events, process_single_event]
          rw [ih]
          simp [countNoteOnD, List.countP_cons, isNoteOnForD]
      | allNotesOff c =>
          simp only [process_new_events, process_single_event]
          rw [ih]
          simp [countNoteOnD, List.countP_cons, isNoteOnForD]

/-- Per-tick NoteOff delivery characterization: during a consecutive-tick run,
the NoteOffs (for a fixed channel/note) sent while processing tick `t + j` are
the initially scheduled entries for key `t + j`, plus one NoteOff for every
NoteOn processed at an earlier tick `t + i` whose `duration_ticks` equals
`j - i`, plus any direct NoteOff among tick `t + j`'s own new events. -/
theorem run_delivered_count (ch note : Nat) :
    ∀ (Es : List (List MidiMessage)) (m : MidiOutputManager) (t j : Nat),
      j < Es.length →
      countNoteOff ch note ((runTicks m t Es).1.getD j [])
        = countNoteOff ch note (m.scheduled_notes (t + j))
          + (∑ i ∈ Finset.range j, countNoteOnD ch note (j - i) (Es.getD i []))
          + countNoteOff ch note (Es.getD j []) := by
  intro Es
  induction Es with
  | nil => intro m t j hj; simp at hj
  | cons E Es ih =>
      intro m t j hj
      match j with
      | 0 =>
          simp only [runTicks, List.getD_cons_zero, Finset.range_zero,
            Finset.sum_empty, Nat.add_zero]
          rw [show (process_tick_events m t E).1
              = m.scheduled_notes t ++ (E.map sent_image) by
            simp [process_tick_events, process_scheduled_events,
              process_new_events_sent]]
          have hsi := countNoteOff_sent_image ch note E
          simp only [countNoteOff, List.countP_append] at hsi ⊢
          omega
      | j + 1 =>
          have hj' : j < Es.length := by simpa using hj
          have hrun : (runTicks m t (E :: Es)).1.getD (j + 1) []
              = (runTicks (process_tick_events m t E).2 (t + 1) Es).1.getD j [] := by
            simp [runTicks]
          rw [hrun, ih _ (t + 1) j hj']
          have hm1 : countNoteOff ch note
              ((process_tick_events m t E).2.scheduled_notes (t + 1 + j))
              = countNoteOff ch note (m.scheduled_notes (t + (j + 1)))
                + countNoteOnD ch note (j + 1) E := by
            show countNoteOff ch note
                ((process_new_events (process_scheduled_events m t).2 t E).2.scheduled_notes
                  (t + 1 + j)) = _
            rw [process_new_events_sched_count]
            have hne : ¬ (t + 1 + j = t) := by omega
            have hflush : (process_scheduled_events m t).2.scheduled_notes (t + 1 + j)
                = m.scheduled_notes (t + 1 + j) := by
              simp [process_scheduled_events, hne]
            rw [hflush]
            have hle : t ≤ t + 1 + j := by omega
            rw [if_pos hle]
            have : t + 1 + j - t = j + 1 := by omega
            rw [this]
            have : t + 1 + j = t + (j + 1) := by omega
            rw [this]
          rw [hm1]
          have hsum : (∑ i ∈ Finset.range (j + 1),
                countNoteOnD ch note (j + 1 - i) ((E :: Es).getD i []))
              = (∑ i ∈ Finset.range j, countNoteOnD ch note (j - i) (Es.getD i []))
                + countNoteOnD ch note (j + 1) E := by
            rw [Finset.sum_range_succ']
            have h0 : countNoteOnD ch note (j + 1 - 0) ((E :: Es).getD 0 [])
                = countNoteOnD ch note (j + 1) E := by simp
            have hterm : ∀ i ∈ Finset.range j,
                countNoteOnD ch note (j + 1 - (i + 1)) ((E :: Es).getD (i + 1) [])
                  = countNoteOnD ch note (j - i) (Es.getD i []) := by
              intro i _
              have hji : j + 1 - (i + 1) = j - i := by omega
              simp [hji]
            rw [Finset.sum_congr rfl hterm, h0]
          rw [hsum]
          have hget : ((E :: Es).getD (j + 1) []) = Es.getD j [] := by simp
          rw [hget]
          ring

/-- Keys strictly below every processed tick are never flushed nor written:
a run over ticks `≥ t` leaves any key `T < t` untouched. -/
theorem run_sched_preserved_below :
    ∀ (Es : List (List MidiMessage)) (m : MidiOutputManager) (t T : Nat),
      T < t →
      (runTicks m t Es).2.scheduled_notes T = m.scheduled_notes T := by
  intro Es
  induction Es with
  | nil => intro m t T _; rfl
  | cons E Es ih =>
      intro m t T hT
      have hstep : ∀ (E' : List MidiMessage) (m' : MidiOutputManager),
          (process_new_events m' t E').2.scheduled_notes T
            = m'.scheduled_notes T := by
        intro E'
        induction E' with
        | nil => intro m'; rfl
        | cons e es ihe =>
            intro m'
            cases e with
            | noteOn c n v d =>
                rw [show (process_new_events m' t (.noteOn c n v d :: es)).2
                    = (process_new_events
                        (process_single_event m' (.noteOn c n v d) t).2 t es).2 from rfl]
                rw [ihe]
                have : ¬ (T = t + d) := by omega
                simp [process_single_event, process_note_on, this]
            | noteOff c n =>
                rw [show (process_new_events m' t (.noteOff c n :: es)).2
                    = (process_new_events m' t es).2 from rfl]
                exact ihe m'
            | allNotesOff c =>
                rw [show (process_new_events m' t (.allNotesOff c :: es)).2
                    = (process_new_events m' t es).2 from rfl]
                exact ihe m'
      have h1 : (runTicks m t (E :: Es)).2
          = (runTicks (process_tick_events m t E).2 (t + 1) Es).2 := by
        simp [runTicks]
      rw [h1, ih _ (t + 1) T (by omega)]
      show (process_new_events (process_scheduled_events m t).2 t E).2.scheduled_notes T
          = m.scheduled_notes T
      rw [hstep]
      have : ¬ (T = t) := by omega
      simp [process_scheduled_events, this]

theorem countNoteOnD_le_countNoteOn (ch note d : Nat) (l : List MidiMessage) :
    countNoteOnD ch note d l ≤ countNoteOn ch note l := by
  induction l with
  | nil => exact Nat.le_refl 0
  | cons e es ih =>
      simp only [countNoteOnD, countNoteOn, List.countP_cons] at *
      have : (if isNoteOnForD ch note d e = true then 1 else 0)
          ≤ (if isNoteOnFor ch note e = true then 1 else 0) := by
        by_cases hd : isNoteOnForD ch note d e = true
        · have : isNoteOnFor ch note e = true := by
            cases e <;> simp [isNoteOnForD, isNoteOnFor] at hd ⊢ <;> tauto
          simp [hd, this]
        · simp [hd]
      omega

/-- If a list holds exactly one NoteOn for (ch, note) and that one has
duration `D`, then it holds no NoteOn for (ch, note) of any other duration. -/
theorem countNoteOnD_other_duration (ch note D d : Nat) (l : List MidiMessage)
    (hd : d ≠ D) (h1 : countNoteOnD ch note D l = 1)
    (htot : countNoteOn ch note l = 1) :
    countNoteOnD ch note d l = 0 := by
  induction l with
  | nil => rfl
  | cons e es ih =>
      simp only [countNoteOnD, countNoteOn, List.countP_cons] at *
      by_cases he : isNoteOnFor ch note e = true
      · have hes : es.countP (isNoteOnFor ch note) = 0 := by
          rw [if_pos he] at htot
          omega
        have hD : (isNoteOnForD ch note D e = true) := by
          by_cases hDe : isNoteOnForD ch note D e = true
          · exact hDe
          · exfalso
            have : es.countP (isNoteOnForD ch note D) = 1 := by
              simp only [hDe] at h1
              simpa using h1
            have hle := countNoteOnD_le_countNoteOn ch note D es
            simp only [countNoteOnD, countNoteOn] at hle
            omega
        have hde : isNoteOnForD ch note d e = false := by
          cases e with
          | noteOn c n v dd =>
              obtain ⟨⟨hc, hn⟩, hdd⟩ : (c = ch ∧ n = note) ∧ dd = D := by
                simpa [isNoteOnForD] using hD
              have hd' : D ≠ d := fun h => hd h.symm
              simp [isNoteOnForD, hc, hn, hdd, hd']
          | noteOff c n => rfl
          | allNotesOff c => rfl
        have hesd : es.countP (isNoteOnForD ch note d) = 0 := by
          have hle := countNoteOnD_le_countNoteOn ch note d es
          simp only [countNoteOnD, countNoteOn] at hle
          omega
        simp [hde, hesd]
      · have heD : isNoteOnForD ch note D e = false := by
          by_cases hDe : isNoteOnForD ch note D e = true
          · exfalso
            have : isNoteOnFor ch note e = true := by
              cases e <;> simp [isNoteOnForD, isNoteOnFor] at hDe ⊢ <;> tauto
            exact he this
          · simpa using hDe
        have hed : isNoteOnForD ch note d e = false := by
          by_cases hDe : isNoteOnForD ch note d e = true
          · exfalso
            have : isNoteOnFor ch note e = true := by
              cases e <;> simp [isNoteOnForD, isNoteOnFor] at hDe ⊢ <;> tauto
            exact he this
          · simpa using hDe
        simp only [heD, hed, he, if_false, Nat.add_zero] at *
        exact ih h1 htot

/-- Claim C1 (amended): in a consecutive-tick run of the scheduler starting
from an empty table, a Note-On for (ch, note) processed at tick `T + a` with
`duration_ticks = D ≥ 1` — the only event for that channel/note in the run —
yields exactly one Note-Off (same channel/note) in the batch sent while
processing tick `(T + a) + D`, and zero Note-Offs for it in every other
batch.  (For `D = 0` the claim fails; see the counterexample.) -/
theorem c1_scheduler_exactness (ch note D T a : Nat)
    (Es : List (List MidiMessage))
    (hD : 1 ≤ D)
    (haD : a + D < Es.length)
    (hone : countNoteOnD ch note D (Es.getD a []) = 1)
    (htot : countNoteOn ch note (Es.getD a []) = 1)
    (hothers : ∀ i < Es.length, i ≠ a → countNoteOn ch note (Es.getD i []) = 0)
    (hnodirect : ∀ i < Es.length, countNoteOff ch note (Es.getD i []) = 0) :
    ∀ j < Es.length,
      countNoteOff ch note ((runTicks MidiOutputManager.new T Es).1.getD j [])
        = if j = a + D then 1 else 0 := by
  intro j hj
  rw [run_delivered_count ch note Es MidiOutputManager.new T j hj]
  have hnew : countNoteOff ch note
      ((MidiOutputManager.new).scheduled_notes (T + j)) = 0 := rfl
  rw [hnew, hnodirect j hj]
  have hterm : ∀ i ∈ Finset.range j, i ≠ a →
      countNoteOnD ch note (j - i) (Es.getD i []) = 0 := by
    intro i hi hia
    have hiL : i < Es.length := lt_trans (Finset.mem_range.mp hi) hj
    have hle := countNoteOnD_le_countNoteOn ch note (j - i) (Es.getD i [])
    rw [hothers i hiL hia] at hle
    omega
  by_cases hja : a < j
  · have hsum : (∑ i ∈ Finset.range j, countNoteOnD ch note (j - i) (Es.getD i []))
        = countNoteOnD ch note (j - a) (Es.getD a []) :=
      Finset.sum_eq_single_of_mem a (Finset.mem_range.mpr hja)
        (fun i hi hia => hterm i hi hia)
    rw [hsum]
    by_cases hjaD : j = a + D
    · have hda : j - a = D := by omega
      rw [hda, hone, if_pos hjaD]
    · have hne : j - a ≠ D := by omega
      rw [countNoteOnD_other_duration ch note D (j - a) _ hne hone htot,
        if_neg hjaD]
  · have hsum0 : (∑ i ∈ Finset.range j, countNoteOnD ch note (j - i) (Es.getD i []))
        = 0 := by
      refine Finset.sum_eq_zero ?_
      intro i hi
      have hij := Finset.mem_range.mp hi
      exact hterm i hi (by omega)
    rw [hsum0]
    have hne : j ≠ a + D := by omega
    rw [if_neg hne]

/-- Witness for C1: a Note-On (ch 1, note 60, duration 2) processed at tick 1
in a 4-tick run delivers its Note-Off exactly in the batch of tick 3. -/
theorem c1_scheduler_exactness_witness :
    countNoteOff 1 60
      ((runTicks MidiOutputManager.new 1
        [[.noteOn 1 60 100 2], [], [], []]).1.getD 2 []) = 1 ∧
    countNoteOff 1 60
      ((runTicks MidiOutputManager.new 1
        [[.noteOn 1 60 100 2], [], [], []]).1.getD 3 []) = 0 := by
  have h := c1_scheduler_exactness 1 60 2 1 0
    [[.noteOn 1 60 100 2], [], [], []]
    (by decide) (by decide) (by decide) (by decide)
    (by intro i hi hia
        have h4 : i < 4 := by simpa using hi
        interval_cases i
        · exact absurd rfl hia
        · decide
        · decide
        · decide)
    (by intro i hi
        have h4 : i < 4 := by simpa using hi
        interval_cases i <;> decide)
  constructor
  · have h2 := h 2 (by decide)
    simpa using h2
  · have h3 := h 3 (by decide)
    simpa using h3

/-- Counterexample to C1 as stated: a Note-On processed at tick 1 with
`duration_ticks = 0` delivers no Note-Off in the batch of tick `T + D = 1`
(nor in any later batch of the run) — not "exactly one". -/
theorem c1_counterexample :
    countNoteOff 1 60
      ((runTicks MidiOutputManager.new 1
        [[.noteOn 1 60 100 0], [], []]).1.getD 0 []) = 0 ∧
    countNoteOff 1 60
      ((runTicks MidiOutputManager.new 1
        [[.noteOn 1 60 100 0], [], []]).1.getD 1 []) = 0 ∧
    countNoteOff 1 60
      ((runTicks MidiOutputManager.new 1
        [[.noteOn 1 60 100 0], [], []]).1.getD 2 []) = 0 := by
  refine ⟨?_, ?_, ?_⟩ <;> decide

/-- Claim C8 (amended): a Note-On processed at tick `T` with
`duration_ticks = 0` schedules its Note-Off under key `T` itself, after the
key-`T` entries have already been flushed in the same call; the batch sent at
tick `T` consists of the previously scheduled entries followed by the Note-On
only, and on any later run over ticks strictly greater than `T` the scheduled
Note-Off is never flushed (it is not a one-tick-late release: it is never
delivered while ticks keep increasing). -/
theorem c8_zero_duration_note_never_released (m : MidiOutputManager)
    (ch note v T : Nat) :
    (process_tick_events m T [.noteOn ch note v 0]).2.scheduled_notes T
      = [.noteOff ch note] ∧
    (process_tick_events m T [.noteOn ch note v 0]).1
      = m.scheduled_notes T ++ [.noteOn ch note v 0] ∧
    (∀ (t' : Nat) (Es : List (List MidiMessage)), T < t' →
      (runTicks (process_tick_events m T [.noteOn ch note v 0]).2 t' Es).2.scheduled_notes T
        = [.noteOff ch note]) := by
  have hsched : (process_tick_events m T [.noteOn ch note v 0]).2.scheduled_notes T
      = [.noteOff ch note] := by
    show (process_new_events (process_scheduled_events m T).2 T
        [.noteOn ch note v 0]).2.scheduled_notes T = _
    simp [process_new_events, process_single_event, process_note_on,
      process_scheduled_events]
  refine ⟨hsched, ?_, ?_⟩
  · show (process_scheduled_events m T).1
        ++ (process_new_events (process_scheduled_events m T).2 T
              [.noteOn ch note v 0]).1
      = m.scheduled_notes T ++ [.noteOn ch note v 0]
    simp [process_scheduled_events, process_new_events, process_single_event,
      process_note_on]
  · intro t' Es ht
    rw [run_sched_preserved_below Es _ t' T ht, hsched]

/-- Witness for C8 at tick 5 on an empty manager, with a later 2-tick run. -/
theorem c8_zero_duration_note_never_released_witness :
    (process_tick_events MidiOutputManager.new 5
      [.noteOn 1 60 100 0]).2.scheduled_notes 5 = [.noteOff 1 60] ∧
    (runTicks (process_tick_events MidiOutputManager.new 5
      [.noteOn 1 60 100 0]).2 6 [[], []]).2.scheduled_notes 5
      = [.noteOff 1 60] := by
  have h := c8_zero_duration_note_never_released MidiOutputManager.new 1 60 100 5
  exact ⟨h.1, h.2.2 6 [[], []] (by decide)⟩

/-- Counterexample to C8 as stated: after the zero-duration Note-On at tick 5,
the batch sent while processing tick 6 (= T + 1) contains no Note-Off for
(1, 60) — the release is not one tick late, it does not happen. -/
theorem c8_counterexample :
    countNoteOff 1 60
      ((runTicks MidiOutputManager.new 5
        [[.noteOn 1 60 100 0], []]).1.getD 1 []) = 0 := by
  decide

/-- New events inserted while processing tick `t` only touch keys `≥ t`. -/
theorem process_new_events_sched_below (t T : Nat) (hT : T < t) :
    ∀ (E : List MidiMessage) (m : MidiOutputManager),
      (process_new_events m t E).2.scheduled_notes T = m.scheduled_notes T := by
  intro E
  induction E with
  | nil => intro m; rfl
  | cons e es ihe =>
      intro m
      cases e with
      | noteOn c n v d =>
          rw [show (process_new_events m t (.noteOn c n v d :: es)).2
              = (process_new_events
                  (process_single_event m (.noteOn c n v d) t).2 t es).2 from rfl]
          rw [ihe]
          have hne : ¬ (T = t + d) := by omega
          simp [process_single_event, process_note_on, hne]
      | noteOff c n =>
          rw [show (process_new_events m t (.noteOff c n :: es)).2
              = (process_new_events m t es).2 from rfl]
          exact ihe m
      | allNotesOff c =>
          rw [show (process_new_events m t (.allNotesOff c :: es)).2
              = (process_new_events m t es).2 from rfl]
          exact ihe m

/-- Processing any tick `t ≥ 1` keeps key 0 of the schedule empty. -/
theorem process_tick_events_sched_zero_pos (m : MidiOutputManager) (t : Nat)
    (E : List MidiMessage) (h0 : m.scheduled_notes 0 = []) (ht : 1 ≤ t) :
    (process_tick_events m t E).2.scheduled_notes 0 = [] := by
  show (process_new_events (process_scheduled_events m t).2 t E).2.scheduled_notes 0 = []
  rw [process_new_events_sched_below t 0 ht]
  simp only [process_scheduled_events]
  by_cases h : (0 : Nat) = t
  · simp [h]
  · simp [h, h0]

/-- Processing a tick with no new events keeps key 0 of the schedule empty. -/
theorem process_tick_events_sched_zero_nil (m : MidiOutputManager) (t : Nat)
    (h0 : m.scheduled_notes 0 = []) :
    (process_tick_events m t []).2.scheduled_notes 0 = [] := by
  show (process_new_events (process_scheduled_events m t).2 t []).2.scheduled_notes 0 = []
  show (process_scheduled_events m t).2.scheduled_notes 0 = []
  simp only [process_scheduled_events]
  by_cases h : (0 : Nat) = t
  · simp [h]
  · simp [h, h0]

end MidiOutput

/-! ## EventLoop helper lemmas -/

theorem tick_update_stopped_noop (s : SharedState)
    (h : s.transport_state = .stopped) : s.tick_update = s := by
  have : s.transport_state ≠ .playing := by rw [h]; decide
  simp [SharedState.tick_update, this]

theorem tick_update_transport (s : SharedState) :
    (s.tick_update).transport_state = s.transport_state := by
  by_cases h : s.transport_state ≠ TransportState.playing
  · simp [SharedState.tick_update, h]
  · simp only [ne_eq, not_not] at h
    simp [SharedState.tick_update, h]

theorem tick_update_playing_count (s : SharedState)
    (h : s.transport_state = .playing) :
    (s.tick_update).tick_count = s.tick_count + 1 := by
  have : ¬ s.transport_state ≠ TransportState.playing := by simp [h]
  simp [SharedState.tick_update, this]

theorem update_step_fields (s : EventLoop) (now : Nat) :
    (s.update_tick_history_step now).shared_state.tick_count
        = s.shared_state.tick_count ∧
    (s.update_tick_history_step now).shared_state.current_beat
        = s.shared_state.current_beat ∧
    (s.update_tick_history_step now).shared_state.current_bar
        = s.shared_state.current_bar ∧
    (s.update_tick_history_step now).shared_state.transport_state
        = s.shared_state.transport_state ∧
    (s.update_tick_history_step now).musical_tick_count = s.musical_tick_count ∧
    (s.update_tick_history_step now).midi_output = s.midi_output := by
  cases h : s.last_tick_time <;>
    simp [EventLoop.update_tick_history_step, h]

theorem musical_process_tick_stopped (shared : SharedState) (c : Nat)
    (h : shared.transport_state = .stopped) :
    MusicalGraph.process_tick shared c = (false, c) := by
  have : shared.transport_state ≠ .playing := by rw [h]; decide
  simp [MusicalGraph.process_tick, this]

/-- The event loop invariant holds in the initial state. -/
theorem event_loop_inv_init (bpm : Nat) : EventLoopInv (EventLoop.init bpm) := by
  constructor
  · intro _
    exact ⟨rfl, rfl, rfl, rfl⟩
  · rfl

/-- The event loop invariant is preserved by every `run` iteration, so it
holds in every reachable state. -/
theorem event_loop_inv_preserved (s : EventLoop) (msg : EngineMessage)
    (hinv : EventLoopInv s) : EventLoopInv (s.run_step msg).1 := by
  obtain ⟨hstopzero, hsched0⟩ := hinv
  cases msg with
  | transportCommand action =>
      show EventLoopInv (s.handle_transport_command action)
      cases htr : s.shared_state.transport_state with
      | stopped =>
          cases action with
          | start =>
              have he : s.handle_transport_command .start
                  = { s with shared_state :=
                        { s.shared_state with transport_state := .playing } } := by
                unfold EventLoop.handle_transport_command
                rw [htr]
              rw [he]
              exact ⟨fun hcontr => by simp at hcontr, hsched0⟩
          | stop =>
              have he : s.handle_transport_command .stop = s := by
                unfold EventLoop.handle_transport_command
                rw [htr]
              rw [he]
              exact ⟨hstopzero, hsched0⟩
      | playing =>
          cases action with
          | start =>
              have he : s.handle_transport_command .start = s := by
                unfold EventLoop.handle_transport_command
                rw [htr]
              rw [he]
              exact ⟨hstopzero, hsched0⟩
          | stop =>
              have he : s.handle_transport_command .stop
                  = { s with
                        shared_state :=
                          { s.shared_state with
                              transport_state := .stopped, tick_count := 0,
                              current_beat := 0, current_bar := 0 },
                        musical_tick_count := 0 } := by
                unfold EventLoop.handle_transport_command
                rw [htr]
              rw [he]
              exact ⟨fun _ => ⟨rfl, rfl, rfl, rfl⟩, hsched0⟩
  | tick now =>
      obtain ⟨u1, u2, u3, u4, u5, u6⟩ := update_step_fields s now
      cases htr : s.shared_state.transport_state with
      | stopped =>
          have hstop1 : (s.update_tick_history_step now).shared_state.transport_state
              = .stopped := by rw [u4, htr]
          have hnp : (s.update_tick_history_step now).shared_state.tick_update
              = (s.update_tick_history_step now).shared_state :=
            tick_update_stopped_noop _ hstop1
          obtain ⟨z1, z2, z3, z4⟩ := hstopzero htr
          constructor
          · intro _
            simp only [EventLoop.run_step, EventLoop.handle_tick,
              EventLoop.get_midi_events_from_musical_graph, hnp]
            rw [musical_process_tick_stopped _ _ hstop1]
            simp only
            refine ⟨?_, ?_, ?_, ?_⟩
            · rw [u1, z1]
            · rw [u2, z2]
            · rw [u3, z3]
            · rw [u5, z4]
          · simp only [EventLoop.run_step, EventLoop.handle_tick,
              EventLoop.get_midi_events_from_musical_graph, hnp]
            rw [musical_process_tick_stopped _ _ hstop1]
            simp only [if_neg (by decide : ¬ (false = true))]
            rw [u6]
            exact MidiOutput.process_tick_events_sched_zero_nil _ _ hsched0
      | playing =>
          have hplay1 : (s.update_tick_history_step now).shared_state.transport_state
              = .playing := by rw [u4, htr]
          have htrans : ((s.update_tick_history_step now).shared_state.tick_update).transport_state
              = .playing := by rw [tick_update_transport, hplay1]
          have hcount : ((s.update_tick_history_step now).shared_state.tick_update).tick_count
              = s.shared_state.tick_count + 1 := by
            rw [tick_update_playing_count _ hplay1, u1]
          constructor
          · intro hcontr
            exfalso
            simp only [EventLoop.run_step, EventLoop.handle_tick] at hcontr
            rw [htrans] at hcontr
            exact absurd hcontr (by decide)
          · simp only [EventLoop.run_step, EventLoop.handle_tick]
            rw [u6]
            refine MidiOutput.process_tick_events_sched_zero_pos _ _ _ hsched0 ?_
            rw [hcount]
            omega

/-- Claim C2 (amended): a Tick handled while Stopped leaves `tick_count`,
`current_beat`, `current_bar`, the transport state and the musical counter
unchanged and emits no MIDI messages; moreover no engine message changes
`tick_count` while Stopped.  (The tick history and `bpm` field are still
updated on such a tick — see the counterexample — which is the one deviation
from the claim.) -/
theorem c2_tick_while_stopped (s : EventLoop) (now : Nat)
    (hstop : s.shared_state.transport_state = .stopped)
    (hinv : EventLoopInv s) :
    (s.handle_tick now).1.shared_state.tick_count = s.shared_state.tick_count ∧
    (s.handle_tick now).1.shared_state.current_beat = s.shared_state.current_beat ∧
    (s.handle_tick now).1.shared_state.current_bar = s.shared_state.current_bar ∧
    (s.handle_tick now).1.shared_state.transport_state = .stopped ∧
    (s.handle_tick now).1.musical_tick_count = s.musical_tick_count ∧
    (s.handle_tick now).2 = [] ∧
    (∀ msg : EngineMessage,
      (s.run_step msg).1.shared_state.tick_count = s.shared_state.tick_count) := by
  obtain ⟨hstopzero, hsched0⟩ := hinv
  obtain ⟨z1, z2, z3, z4⟩ := hstopzero hstop
  obtain ⟨u1, u2, u3, u4, u5, u6⟩ := update_step_fields s now
  have hstop1 : (s.update_tick_history_step now).shared_state.transport_state
      = .stopped := by rw [u4, hstop]
  have hnp : (s.update_tick_history_step now).shared_state.tick_update
      = (s.update_tick_history_step now).shared_state :=
    tick_update_stopped_noop _ hstop1
  have hsent : (s.handle_tick now).2 = [] := by
    simp only [EventLoop.handle_tick, EventLoop.get_midi_events_from_musical_graph, hnp]
    rw [musical_process_tick_stopped _ _ hstop1]
    simp only [if_neg (by decide : ¬ (false = true))]
    show (MidiOutput.process_scheduled_events _ _).1
        ++ (MidiOutput.process_new_events _ _ []).1 = []
    rw [show ∀ (m : MidiOutput.MidiOutputManager) (t : Nat),
        (MidiOutput.process_new_events m t []).1 = [] from fun _ _ => rfl]
    simp only [MidiOutput.process_scheduled_events, List.append_nil]
    rw [u6, u1, z1, hsched0]
  refine ⟨?_, ?_, ?_, ?_, ?_, hsent, ?_⟩
  · simp only [EventLoop.handle_tick, hnp]; rw [u1]
  · simp only [EventLoop.handle_tick, hnp]; rw [u2]
  · simp only [EventLoop.handle_tick, hnp]; rw [u3]
  · simp only [EventLoop.handle_tick, hnp]; rw [u4, hstop]
  · simp only [EventLoop.handle_tick,
      EventLoop.get_midi_events_from_musical_graph, hnp]
    rw [musical_process_tick_stopped _ _ hstop1]
    exact u5
  · intro msg
    cases msg with
    | tick now' =>
        obtain ⟨v1, _, _, v4, _, _⟩ := update_step_fields s now'
        have hstop1' : (s.update_tick_history_step now').shared_state.transport_state
            = .stopped := by rw [v4, hstop]
        have hnp' : (s.update_tick_history_step now').shared_state.tick_update
            = (s.update_tick_history_step now').shared_state :=
          tick_update_stopped_noop _ hstop1'
        simp only [EventLoop.run_step, EventLoop.handle_tick, hnp']
        rw [v1]
    | transportCommand action =>
        cases action <;>
          simp [EventLoop.run_step, EventLoop.handle_transport_command, hstop]

/-- Witness for C2: a stopped state with a pending scheduled note-off under a
future key and a previous tick timestamp; the stopped tick is a transport
no-op and emits nothing. -/
theorem c2_tick_while_stopped_witness :
    (({ shared_state :=
          { bpm := 0, tick_count := 0, current_beat := 0, current_bar := 0,
            transport_state := .stopped },
        last_tick_time := some 0, tick_history := [], midi_output := .new,
        musical_tick_count := 0 } : EventLoop).handle_tick 500000).1.shared_state.tick_count
      = 0 ∧
    (({ shared_state :=
          { bpm := 0, tick_count := 0, current_beat := 0, current_bar := 0,
            transport_state := .stopped },
        last_tick_time := some 0, tick_history := [], midi_output := .new,
        musical_tick_count := 0 } : EventLoop).handle_tick 500000).2 = [] := by
  have h := c2_tick_while_stopped
    { shared_state :=
        { bpm := 0, tick_count := 0, current_beat := 0, current_bar := 0,
          transport_state := .stopped },
      last_tick_time := some 0, tick_history := [], midi_output := .new,
      musical_tick_count := 0 } 500000 rfl
    ⟨fun _ => ⟨rfl, rfl, rfl, rfl⟩, rfl⟩
  exact ⟨h.1, h.2.2.2.2.2.1⟩

/-- Counterexample to C2 as stated: two Ticks processed while Stopped (at
times 0 µs and 500000 µs) leave the transport Stopped throughout, yet the
second one rewrites `bpm` from 0 to 5 — the bpm field is not left unchanged
by a Tick received while Stopped. -/
theorem c2_counterexample :
    ((EventLoop.init 120).handle_tick 0).1.shared_state.transport_state
      = .stopped ∧
    ((EventLoop.init 120).handle_tick 0).1.shared_state.bpm = 0 ∧
    ((((EventLoop.init 120).handle_tick 0).1.handle_tick 500000)).1.shared_state.transport_state
      = .stopped ∧
    ((((EventLoop.init 120).handle_tick 0).1.handle_tick 500000)).1.shared_state.bpm
      = 5 := by
  refine ⟨rfl, rfl, rfl, ?_⟩
  show calculate_bpm (update_tick_history [] (500000 - 0)) = 5
  norm_num [update_tick_history, TICK_HISTORY_SIZE, calculate_bpm, rustRound]
  rfl

/-- Claim C4: in any reachable event-loop state, processing a Stop transport
command leaves `tick_count = current_beat = current_bar = 0` and the musical
tick counter at 0 (and the transport Stopped), regardless of the prior
values. -/
theorem c4_stop_resets (s : EventLoop) (hinv : EventLoopInv s) :
    (s.handle_transport_command .stop).shared_state.tick_count = 0 ∧
    (s.handle_transport_command .stop).shared_state.current_beat = 0 ∧
    (s.handle_transport_command .stop).shared_state.current_bar = 0 ∧
    (s.handle_transport_command .stop).musical_tick_count = 0 ∧
    (s.handle_transport_command .stop).shared_state.transport_state = .stopped := by
  cases htr : s.shared_state.transport_state with
  | stopped =>
      obtain ⟨z1, z2, z3, z4⟩ := hinv.1 htr
      have he : s.handle_transport_command .stop = s := by
        unfold EventLoop.handle_transport_command
        rw [htr]
      rw [he]
      exact ⟨z1, z2, z3, z4, htr⟩
  | playing =>
      have he : s.handle_transport_command .stop
          = { s with
                shared_state :=
                  { s.shared_state with
                      transport_state := .stopped, tick_count := 0,
                      current_beat := 0, current_bar := 0 },
                musical_tick_count := 0 } := by
        unfold EventLoop.handle_transport_command
        rw [htr]
      rw [he]
      exact ⟨rfl, rfl, rfl, rfl, rfl⟩

/-- Witness for C4 at a mid-bar Playing state with nonzero counters. -/
theorem c4_stop_resets_witness :
    (({ shared_state :=
          { bpm := 119, tick_count := 57, current_beat := 3, current_bar := 1,
            transport_state := .playing },
        last_tick_time := some 12345, tick_history := [20833],
        midi_output := .new,
        musical_tick_count := 57 } : EventLoop).handle_transport_command
            .stop).shared_state.tick_count = 0 ∧
    (({ shared_state :=
          { bpm := 119, tick_count := 57, current_beat := 3, current_bar := 1,
            transport_state := .playing },
        last_tick_time := some 12345, tick_history := [20833],
        midi_output := .new,
        musical_tick_count := 57 } : EventLoop).handle_transport_command
            .stop).musical_tick_count = 0 := by
  have h := c4_stop_resets
    { shared_state :=
        { bpm := 119, tick_count := 57, current_beat := 3, current_bar := 1,
          transport_state := .playing },
      last_tick_time := some 12345, tick_history := [20833],
      midi_output := .new,
      musical_tick_count := 57 }
    ⟨fun hct => absurd hct (by decide), rfl⟩
  exact ⟨h.1, h.2.2.2.1⟩

/-- Claim C10: while Playing, `musical_graph::process_tick` increments its
independent counter by exactly one per call and reports a trigger exactly
when the incremented counter is a (positive) multiple of 96 = 24·4; the event
loop turns a trigger into a single Note-On (channel 1, note 60, velocity 100,
duration_ticks 48). -/
theorem c10_musical_trigger (s : EventLoop)
    (h : s.shared_state.transport_state = .playing) :
    (MusicalGraph.process_tick s.shared_state s.musical_tick_count).2
      = s.musical_tick_count + 1 ∧
    ((MusicalGraph.process_tick s.shared_state s.musical_tick_count).1 = true ↔
      ((s.musical_tick_count + 1) %
          (MusicalGraph.MG_TICKS_PER_BEAT * MusicalGraph.MG_BEATS_PER_BAR) = 0 ∧
        0 < s.musical_tick_count + 1)) ∧
    s.get_midi_events_from_musical_graph
      = ((if (MusicalGraph.process_tick s.shared_state s.musical_tick_count).1
            then [MidiOutput.MidiMessage.noteOn 1 60 100 48] else []),
         s.musical_tick_count + 1) := by
  have hne : ¬ s.shared_state.transport_state ≠ TransportState.playing := by simp [h]
  refine ⟨?_, ?_, ?_⟩
  · simp [MusicalGraph.process_tick, hne]
  · rw [show MusicalGraph.MG_TICKS_PER_BEAT * MusicalGraph.MG_BEATS_PER_BAR = 96
      from rfl]
    have hfst : (MusicalGraph.process_tick s.shared_state s.musical_tick_count).1
        = if (((s.musical_tick_count + 1) / 24) % 4 = 0
              ∧ 0 < (s.musical_tick_count + 1) / (24 * 4) + 1
              ∧ (0 : Nat) < 1
              ∧ (s.musical_tick_count + 1) % 24 = 0)
            then true else false := by
      unfold MusicalGraph.process_tick
      rw [if_neg hne]
      rfl
    rw [hfst]
    have hmm : (s.musical_tick_count + 1) % 96
        = (s.musical_tick_count + 1) % 24
          + 24 * ((s.musical_tick_count + 1) / 24 % 4) := by
      rw [show (96 : Nat) = 24 * 4 from rfl, Nat.mod_mul]
    by_cases hP : (((s.musical_tick_count + 1) / 24) % 4 = 0
        ∧ 0 < (s.musical_tick_count + 1) / (24 * 4) + 1
        ∧ (0 : Nat) < 1
        ∧ (s.musical_tick_count + 1) % 24 = 0)
    · rw [if_pos hP]
      obtain ⟨hbeat, -, -, htick⟩ := hP
      constructor
      · intro _
        refine ⟨?_, Nat.succ_pos _⟩
        rw [hmm, htick, hbeat]
      · intro _; rfl
    · rw [if_neg hP]
      constructor
      · intro habs; exact absurd habs (by decide)
      · rintro ⟨hmul, -⟩
        exfalso
        apply hP
        rw [hmm] at hmul
        exact ⟨by omega, Nat.succ_pos _, by decide, by omega⟩
  · simp only [EventLoop.get_midi_events_from_musical_graph]
    have hc : (MusicalGraph.process_tick s.shared_state s.musical_tick_count).2
        = s.musical_tick_count + 1 := by
      simp [MusicalGraph.process_tick, hne]
    rw [hc]

/-- Witness for C10: the 96th Playing tick after a reset triggers, the 95th
does not. -/
theorem c10_musical_trigger_witness :
    (MusicalGraph.process_tick
      { bpm := 0, tick_count := 95, current_beat := 4, current_bar := 1,
        transport_state := .playing } 95).1 = true ∧
    (MusicalGraph.process_tick
      { bpm := 0, tick_count := 94, current_beat := 4, current_bar := 1,
        transport_state := .playing } 94).1 = false := by
  constructor
  · have h := c10_musical_trigger
      { shared_state :=
          { bpm := 0, tick_count := 95, current_beat := 4, current_bar := 1,
            transport_state := .playing },
        last_tick_time := none, tick_history := [], midi_output := .new,
        musical_tick_count := 95 } rfl
    exact h.2.1.mpr ⟨by decide, by decide⟩
  · have h := c10_musical_trigger
      { shared_state :=
          { bpm := 0, tick_count := 94, current_beat := 4, current_bar := 1,
            transport_state := .playing },
        last_tick_time := none, tick_history := [], midi_output := .new,
        musical_tick_count := 94 } rfl
    by_contra hcontr
    have : (MusicalGraph.process_tick
        { bpm := 0, tick_count := 94, current_beat := 4, current_bar := 1,
          transport_state := .playing } 94).1 = true := by
      revert hcontr
      cases (MusicalGraph.process_tick
        { bpm := 0, tick_count := 94, current_beat := 4, current_bar := 1,
          transport_state := .playing } 94).1 <;> simp
    have h95 := h.2.1.mp this
    exact absurd h95.1 (by decide)

/-! ## BpmCalculator lemmas and claim C5 -/

namespace Clock

theorem maintain_window_of_le (l : List Nat) (h : l.length ≤ window_size) :
    maintain_interval_window l = l := by
  unfold maintain_interval_window
  rw [if_neg (by omega)]

theorem maintain_window_of_succ (l : List Nat)
    (h : l.length = window_size + 1) :
    maintain_interval_window l = l.drop 1 := by
  unfold maintain_interval_window
  rw [if_pos (by omega)]
  exact maintain_window_of_le _ (by simp only [List.length_drop]; omega)

/-- Reduction of the `Tick` arm of `process_message` while playing with a
previous timestamp. -/
theorem process_message_tick_playing (st : BpmState) (now t : Nat)
    (hplay : st.is_playing = true) (hlast : st.last_tick_time = some t) :
    process_message st now .Tick =
      (if 3 ≤ (if 1000 < now - t ∧ now - t < 100000
            then maintain_interval_window (st.intervals ++ [now - t])
            else st.intervals).length
       then (some (trimmed_mean_bpm
              (if 1000 < now - t ∧ now - t < 100000
               then maintain_interval_window (st.intervals ++ [now - t])
               else st.intervals)),
             { st with
                 intervals := (if 1000 < now - t ∧ now - t < 100000
                   then maintain_interval_window (st.intervals ++ [now - t])
                   else st.intervals)
                 last_tick_time := some now
                 tick_count := st.tick_count + 1 })
       else (none,
             { st with
                 intervals := (if 1000 < now - t ∧ now - t < 100000
                   then maintain_interval_window (st.intervals ++ [now - t])
                   else st.intervals)
                 last_tick_time := some now
                 tick_count := st.tick_count + 1 })) := by
  unfold process_message
  rw [if_neg (by simp [hplay]), hlast]

/-- Claim C5 (amended): on a Tick while playing with a previous timestamp
`t`, the interval `now − t` enters the window iff `1ms < elapsed < 100ms`;
the oldest sample is evicted once the window exceeds 24 entries; the
timestamp is recorded unconditionally; and the call returns `Some` exactly
when the updated window holds ≥ 3 samples — the value being the trimmed-mean
estimate of the slice `[len/4, 3·len/4)` of the sorted window (which drops
`⌈len/4⌉`, not `len/4`, samples from the high end when `len` is not a
multiple of 4 — see the counterexample).  Ticks while not playing return
`None` and change nothing. -/
theorem c5_bpm_process_tick (st : BpmState) (now t : Nat)
    (hplay : st.is_playing = true)
    (hlast : st.last_tick_time = some t) :
    ((1000 < now - t ∧ now - t < 100000) →
       (process_message st now .Tick).2.intervals
         = maintain_interval_window (st.intervals ++ [now - t])) ∧
    (¬ (1000 < now - t ∧ now - t < 100000) →
       (process_message st now .Tick).2.intervals = st.intervals) ∧
    (st.intervals.length ≤ window_size →
       (process_message st now .Tick).2.intervals.length ≤ window_size) ∧
    ((1000 < now - t ∧ now - t < 100000) ∧ st.intervals.length = window_size →
       (process_message st now .Tick).2.intervals
         = (st.intervals ++ [now - t]).drop 1) ∧
    (process_message st now .Tick).2.last_tick_time = some now ∧
    (3 ≤ (process_message st now .Tick).2.intervals.length →
       (process_message st now .Tick).1
         = some (trimmed_mean_bpm (process_message st now .Tick).2.intervals)) ∧
    ((process_message st now .Tick).2.intervals.length < 3 →
       (process_message st now .Tick).1 = none) ∧
    (∀ (st' : BpmState) (now' : Nat), st'.is_playing = false →
       process_message st' now' .Tick = (none, st')) := by
  have hmain := process_message_tick_playing st now t hplay hlast
  have hint : (process_message st now .Tick).2.intervals
      = (if 1000 < now - t ∧ now - t < 100000
         then maintain_interval_window (st.intervals ++ [now - t])
         else st.intervals) := by
    rw [hmain]
    split
    · split <;> rfl
    · split <;> rfl
  have hltt : (process_message st now .Tick).2.last_tick_time = some now := by
    rw [hmain]
    split
    · split <;> rfl
    · split <;> rfl
  have hfst : (process_message st now .Tick).1
      = (if 3 ≤ (if 1000 < now - t ∧ now - t < 100000
            then maintain_interval_window (st.intervals ++ [now - t])
            else st.intervals).length
         then some (trimmed_mean_bpm
            (if 1000 < now - t ∧ now - t < 100000
             then maintain_interval_window (st.intervals ++ [now - t])
             else st.intervals))
         else none) := by
    by_cases h3 : 3 ≤ (if 1000 < now - t ∧ now - t < 100000
        then maintain_interval_window (st.intervals ++ [now - t])
        else st.intervals).length
    · simp only [hmain, if_pos h3]
    · simp only [hmain, if_neg h3]
  refine ⟨?_, ?_, ?_, ?_, hltt, ?_, ?_, ?_⟩
  · intro h
    rw [hint, if_pos h]
  · intro h
    rw [hint, if_neg h]
  · intro hlen
    rw [hint]
    by_cases hP : (1000 < now - t ∧ now - t < 100000)
    · rw [if_pos hP]
      by_cases heq : st.intervals.length = window_size
      · rw [maintain_window_of_succ _ (by simp [heq])]
        simp only [List.length_drop, List.length_append, List.length_cons,
          List.length_nil]
        omega
      · rw [maintain_window_of_le _
            (by simp only [List.length_append, List.length_cons,
              List.length_nil]; omega)]
        simp only [List.length_append, List.length_cons, List.length_nil]
        omega
    · rw [if_neg hP]
      exact hlen
  · rintro ⟨hP, hlen⟩
    rw [hint, if_pos hP]
    exact maintain_window_of_succ _ (by simp [hlen])
  · intro h3
    rw [hint] at h3
    rw [hfst, hint, if_pos h3]
  · intro h3
    rw [hint] at h3
    rw [hfst, if_neg (by omega)]
  · intro st' now' hnp
    unfold process_message
    rw [if_pos hnp]

/-- Witness for C5: two 20 ms samples plus an accepted 20.5 ms interval give a
three-sample window and a `Some` return. -/
theorem c5_bpm_process_tick_witness :
    (process_message
        { last_tick_time := some 0, is_playing := true, tick_count := 2,
          intervals := [20000, 20000] } 20500 .Tick).2.intervals
      = maintain_interval_window ([20000, 20000] ++ [20500 - 0]) ∧
    (process_message
        { last_tick_time := some 0, is_playing := true, tick_count := 2,
          intervals := [20000, 20000] } 20500 .Tick).2.last_tick_time
      = some 20500 ∧
    (process_message
        { last_tick_time := some 0, is_playing := true, tick_count := 2,
          intervals := [20000, 20000] } 20500 .Tick).1
      = some (trimmed_mean_bpm
          (process_message
            { last_tick_time := some 0, is_playing := true, tick_count := 2,
              intervals := [20000, 20000] } 20500 .Tick).2.intervals) := by
  have h := c5_bpm_process_tick
    { last_tick_time := some 0, is_playing := true, tick_count := 2,
      intervals := [20000, 20000] } 20500 0 rfl rfl
  refine ⟨h.1 (by decide), h.2.2.2.2.1, h.2.2.2.2.2.1 ?_⟩
  rw [h.1 (by decide), maintain_window_of_le _ (by decide)]
  decide

/-- Counterexample to C5 as stated: with a five-sample window the code
averages `sorted[1..3]` (two samples: it drops ⌈5/4⌉ = 2 from the high end),
not the middle three samples that "drop len/4 from each end" would leave; on
the window {2,3,4,5,6} ms the code returns 5000/7 ≈ 714.3 BPM while the
claim's algorithm yields 625 BPM. -/
theorem c5_counterexample :
    (process_message
        { last_tick_time := some 0, is_playing := true, tick_count := 4,
          intervals := [2000, 3000, 4000, 5000] } 6000 .Tick).1
      = some ((5000 : ℚ) / 7) ∧
    spec_trimmed_mean_bpm [2000, 3000, 4000, 5000, 6000] = 625 ∧
    ((5000 : ℚ) / 7) ≠ 625 := by
  have hmw : maintain_interval_window [2000, 3000, 4000, 5000, 6000]
      = [2000, 3000, 4000, 5000, 6000] := maintain_window_of_le _ (by decide)
  refine ⟨?_, ?_, by norm_num⟩
  · norm_num [process_message, hmw, trimmed_mean_bpm, sortIntervals,
      insertSorted, ppq]
  · norm_num [spec_trimmed_mean_bpm, sortIntervals, insertSorted, ppq]

end Clock

/-! ## External clock watchdog (C6) and byte classification (C7) -/

namespace MidiExternalClock

/-- A check that observes more than `INACTIVITY_TIMEOUT` of silence stops the
loop immediately: the transport is forced to not-playing and the remaining
inputs are returned untouched. -/
theorem loop_fires_now (s : LoopState) (inputs : List RecvOutcome)
    (h : INACTIVITY_TIMEOUT < s.now - s.clock.last_message_time) :
    run_external_clock_loop s inputs
      = ({ s with clock := { s.clock with
            shared_state := s.clock.shared_state.set_playing false } },
         .watchdog, inputs) := by
  unfold run_external_clock_loop
  have hc : (check_connection_status s.clock s.now).1 = false := by
    unfold check_connection_status
    rw [if_pos h]
  rw [if_pos hc]
  unfold check_connection_status
  rw [if_pos h]

theorem loop_all_timeouts_fires (inputs : List RecvOutcome) :
    ∀ (s : LoopState),
      (∀ i ∈ inputs, i = RecvOutcome.timeout) →
      s.clock.last_message_time ≤ s.now →
      INACTIVITY_TIMEOUT
        < (s.now - s.clock.last_message_time) + inputs.length * 1000000 →
      (run_external_clock_loop s inputs).2.1 = LoopExit.watchdog ∧
      (run_external_clock_loop s inputs).1.clock.shared_state.is_playing = false := by
  induction inputs with
  | nil =>
      intro s _ _ hlong
      have h : INACTIVITY_TIMEOUT < s.now - s.clock.last_message_time := by
        simpa using hlong
      rw [loop_fires_now s [] h]
      exact ⟨rfl, rfl⟩
  | cons i rest ih =>
      intro s hall hmono hlong
      have hi : i = RecvOutcome.timeout := hall i (by simp)
      subst hi
      by_cases hfire : INACTIVITY_TIMEOUT < s.now - s.clock.last_message_time
      · rw [loop_fires_now s _ hfire]
        exact ⟨rfl, rfl⟩
      · have hc : (check_connection_status s.clock s.now).1 = true := by
          unfold check_connection_status
          rw [if_neg hfire]
        have hstep : run_external_clock_loop s (RecvOutcome.timeout :: rest)
            = run_external_clock_loop { s with now := s.now + 1000000 } rest := by
          conv_lhs => rw [run_external_clock_loop.eq_def]
          rw [if_neg (by rw [hc]; decide)]
        rw [hstep]
        refine ih { s with now := s.now + 1000000 }
          (fun j hj => hall j (by simp [hj]))
          (by show s.clock.last_message_time ≤ s.now + 1000000; omega) ?_
        show INACTIVITY_TIMEOUT
            < (s.now + 1000000) - s.clock.last_message_time
              + rest.length * 1000000
        have hT : INACTIVITY_TIMEOUT = 5000000 := rfl
        rw [hT] at hlong ⊢
        have hlen : (RecvOutcome.timeout :: rest).length = rest.length + 1 := rfl
        rw [hlen] at hlong
        omega

/-- Claim C6: if the external clock source receives no inbound message for at
least `INACTIVITY_TIMEOUT = 5` seconds (a silent tail: every pending receive
times out, and enough 1-second polls elapse to push the observed silence past
the timeout), then the watchdog fires: the shared transport is set to
not-playing, the loop exits with the watchdog error, and — as the last
conjunct shows — once a check observes the timeout the loop consumes no
further inputs at all (fatal, non-retrying). -/
theorem c6_watchdog_failstop (s : LoopState) (inputs : List RecvOutcome)
    (hall : ∀ i ∈ inputs, i = RecvOutcome.timeout)
    (hmono : s.clock.last_message_time ≤ s.now)
    (hlong : INACTIVITY_TIMEOUT
        < (s.now - s.clock.last_message_time) + inputs.length * 1000000) :
    (run_external_clock_loop s inputs).2.1 = LoopExit.watchdog ∧
    (run_external_clock_loop s inputs).1.clock.shared_state.is_playing = false ∧
    (∀ (s' : LoopState) (inputs' : List RecvOutcome),
      INACTIVITY_TIMEOUT < s'.now - s'.clock.last_message_time →
      run_external_clock_loop s' inputs'
        = ({ s' with clock := { s'.clock with
              shared_state := s'.clock.shared_state.set_playing false } },
           .watchdog, inputs')) := by
  obtain ⟨h1, h2⟩ := loop_all_timeouts_fires inputs s hall hmono hlong
  exact ⟨h1, h2, loop_fires_now⟩

/-- Witness for C6: six consecutive 1-second timeouts starting from a fresh
clock (last message at time 0) trip the watchdog. -/
theorem c6_watchdog_failstop_witness :
    (run_external_clock_loop
      { clock := { bpm_calculator := Clock.BpmState.new,
                   shared_state := { bpm := 120, tick_count := 0, beat := 1,
                                     bar := 1, is_playing := true },
                   last_message_time := 0 },
        now := 0 }
      (List.replicate 6 RecvOutcome.timeout)).2.1 = LoopExit.watchdog ∧
    (run_external_clock_loop
      { clock := { bpm_calculator := Clock.BpmState.new,
                   shared_state := { bpm := 120, tick_count := 0, beat := 1,
                                     bar := 1, is_playing := true },
                   last_message_time := 0 },
        now := 0 }
      (List.replicate 6 RecvOutcome.timeout)).1.clock.shared_state.is_playing
      = false := by
  have h := c6_watchdog_failstop
    { clock := { bpm_calculator := Clock.BpmState.new,
                 shared_state := { bpm := 120, tick_count := 0, beat := 1,
                                   bar := 1, is_playing := true },
                 last_message_time := 0 },
      now := 0 }
    (List.replicate 6 RecvOutcome.timeout)
    (fun i hi => List.eq_of_mem_replicate hi)
    (by decide)
    (by decide)
  exact ⟨h.1, h.2.1⟩

end MidiExternalClock

theorem convert_of_non_realtime_none (m : Midi.MidiMessage)
    (h1 : m ≠ .Clock) (h2 : m ≠ .Start) (h3 : m ≠ .Stop) (h4 : m ≠ .Continue) :
    MidiExternalClock.convert_midi_to_clock_message m = none := by
  cases m <;> first
    | rfl
    | exact absurd rfl h1
    | exact absurd rfl h2
    | exact absurd rfl h3
    | exact absurd rfl h4

theorem parse_channel_classify_none (b : Nat) (rest : List Nat)
    (hb : b < 0xF0) :
    (Midi.parse_midi_message (b :: rest)).bind
      MidiExternalClock.convert_midi_to_clock_message = none := by
  have hnb : ¬ (0xF0 ≤ b) := by omega
  simp only [Midi.parse_midi_message]
  rw [if_neg hnb]
  rcases rest with _ | ⟨x, _ | ⟨y, r⟩⟩ <;>
    · split_ifs <;> rfl

/-- Bytes ≥ 0xF0 other than the four realtime bytes do not parse. -/
theorem parse_system_other_none (b : Nat) (rest : List Nat)
    (hge : 0xF0 ≤ b) (h1 : b ≠ 0xF8) (h2 : b ≠ 0xFA) (h3 : b ≠ 0xFC)
    (h4 : b ≠ 0xFB) :
    Midi.parse_midi_message (b :: rest) = none := by
  simp only [Midi.parse_midi_message]
  rw [if_pos hge, if_neg h1, if_neg h2, if_neg h3, if_neg h4]

/-- Claim C7 (amended): on the EngineMessage channel path
(`external_clock.rs::handle_midi_message`) bytes classify as 0xF8 → Tick,
0xFA → Start, 0xFC → Stop, and every other leading byte — 0xFB included — is
only logged: no engine message is produced.  On the midi-engine path
(`MidirEngine::parse_midi_message` composed with
`ExternalClock::convert_midi_to_clock_message`) the four realtime bytes map
to Tick/Start/Stop/Continue; parsed channel-voice messages yield no clock
message and leave the clock state (transport and BPM calculator) untouched
apart from `last_message_time`; and system bytes outside the four do not
parse at all (they surface as a receive error, terminating the receiver
thread, rather than a classified message). -/
theorem c7_byte_classification :
    (∀ rest : List Nat,
      RootExternalClock.handle_midi_message (0xF8 :: rest)
        = some RootExternalClock.SentEngineMessage.tick ∧
      RootExternalClock.handle_midi_message (0xFA :: rest)
        = some (RootExternalClock.SentEngineMessage.transportCommand .start) ∧
      RootExternalClock.handle_midi_message (0xFC :: rest)
        = some (RootExternalClock.SentEngineMessage.transportCommand .stop) ∧
      RootExternalClock.handle_midi_message (0xFB :: rest) = none) ∧
    (∀ (b : Nat) (rest : List Nat),
      b ≠ 0xF8 → b ≠ 0xFA → b ≠ 0xFC →
      RootExternalClock.handle_midi_message (b :: rest) = none) ∧
    RootExternalClock.handle_midi_message [] = none ∧
    (∀ rest : List Nat,
      (Midi.parse_midi_message (0xF8 :: rest)).bind
          MidiExternalClock.convert_midi_to_clock_message
        = some Clock.ClockMessage.Tick ∧
      (Midi.parse_midi_message (0xFA :: rest)).bind
          MidiExternalClock.convert_midi_to_clock_message
        = some Clock.ClockMessage.Start ∧
      (Midi.parse_midi_message (0xFC :: rest)).bind
          MidiExternalClock.convert_midi_to_clock_message
        = some Clock.ClockMessage.Stop ∧
      (Midi.parse_midi_message (0xFB :: rest)).bind
          MidiExternalClock.convert_midi_to_clock_message
        = some Clock.ClockMessage.Continue) ∧
    (∀ (b : Nat) (rest : List Nat), b < 0xF0 →
      (Midi.parse_midi_message (b :: rest)).bind
        MidiExternalClock.convert_midi_to_clock_message = none) ∧
    (∀ (b : Nat) (rest : List Nat), 0xF0 ≤ b →
      b ≠ 0xF8 → b ≠ 0xFA → b ≠ 0xFC → b ≠ 0xFB →
      Midi.parse_midi_message (b :: rest) = none) ∧
    (∀ (c : MidiExternalClock.ExternalClock) (now : Nat) (m : Midi.MidiMessage),
      MidiExternalClock.convert_midi_to_clock_message m = none →
      MidiExternalClock.handle_midi_message c now m
        = { c with last_message_time := now }) := by
  refine ⟨?_, ?_, rfl, ?_, parse_channel_classify_none, parse_system_other_none, ?_⟩
  · intro rest
    refine ⟨rfl, rfl, rfl, rfl⟩
  · intro b rest h1 h2 h3
    simp only [RootExternalClock.handle_midi_message]
    rw [if_neg h1, if_neg h2, if_neg h3]
  · intro rest
    refine ⟨rfl, rfl, rfl, rfl⟩
  · intro c now m hconv
    unfold MidiExternalClock.handle_midi_message
    rw [hconv]

/-- Witness for C7 at concrete bytes: a Note-On status byte (0x90) produces
no engine message on the channel path and no clock message on the
midi-engine path. -/
theorem c7_byte_classification_witness :
    RootExternalClock.handle_midi_message [0x90, 60, 100] = none ∧
    (Midi.parse_midi_message [0x90, 60, 100]).bind
      MidiExternalClock.convert_midi_to_clock_message = none ∧
    RootExternalClock.handle_midi_message [0xF8]
      = some RootExternalClock.SentEngineMessage.tick ∧
    Midi.parse_midi_message [0xF7] = none := by
  refine ⟨?_, ?_, ?_, ?_⟩
  · exact c7_byte_classification.2.1 0x90 [60, 100]
      (by decide) (by decide) (by decide)
  · exact c7_byte_classification.2.2.2.2.1 0x90 [60, 100] (by decide)
  · exact (c7_byte_classification.1 []).1
  · exact c7_byte_classification.2.2.2.2.2.1 0xF7 []
      (by decide) (by decide) (by decide) (by decide) (by decide)

/-- Counterexample to C7 as stated: on the EngineMessage path the leading
byte 0xFB (MIDI Continue) is NOT classified as Continue — it produces no
engine message at all (EngineMessage has no Continue), while the midi-engine
path does classify it as Continue; the uniform classification in the claim is
false. -/
theorem c7_counterexample :
    RootExternalClock.handle_midi_message [0xFB] = none ∧
    (Midi.parse_midi_message [0xFB]).bind
      MidiExternalClock.convert_midi_to_clock_message
      = some Clock.ClockMessage.Continue := by
  exact ⟨rfl, rfl⟩

end Phasor
